/-
Verification of the vectorized multi-environment execution layer of
Rlbot-thesis (src/envs/vectorized.py) against its natural-language
specification.

The coordinator (class VectorizedEnv) and the process-mode worker loop are
shallowly embedded below.  Python dicts keyed by agent id become association
lists in insertion order; rewards become rationals; the external simulation,
worker responses and the curriculum manager become explicit oracles (per-slot
scripts).  Fallible paths are modelled with Except / Option, and the two
relevant CPython facts that the code depends on are encoded explicitly where
they are used, each with a comment naming the behaviour:

  * a variable bound inside a Python 3 list comprehension is not visible
    outside it, so reading it afterwards raises NameError
    (vectorized.py line 364 reads the comprehension-local "i");
  * select.select returns a 3-tuple, and a non-empty tuple is truthy, so
    testing the tuple itself (line 270) instead of its first component
    (line 68 does it right) never takes the timeout branch;
  * Connection.send on a connection this process already closed raises
    OSError, which is neither BrokenPipeError nor EOFError.
-/
import Mathlib

set_option maxRecDepth 4000

namespace RlbotVec

/-- Agent identifiers: opaque, stable within one episode of one slot. -/
abbrev AgentId := Nat

/-- Observation payloads are opaque to the coordinator; modelled as numbers. -/
abbrev ObsVal := Nat

/-- A Python dict mapping agent ids to observations, kept in insertion order. -/
abbrev ObsDict := List (AgentId × ObsVal)

/-- A Python dict mapping agent ids to rewards. -/
abbrev RewDict := List (AgentId × Rat)

/-- A Python dict mapping agent ids to terminated / truncated flags. -/
abbrev FlagDict := List (AgentId × Bool)

/-- One simulation step result: (next observations, rewards, terminated, truncated). -/
structure StepOut where
  obs : ObsDict
  rewards : RewDict
  terminated : FlagDict
  truncated : FlagDict
deriving DecidableEq

/-- any(d.values()) over a dict of booleans. -/
def anyFlag (d : FlagDict) : Bool := d.any (fun p => p.2)

/-- The keys of a reward dict, in insertion order. -/
def keysOf (d : RewDict) : List AgentId := d.map (fun p => p.1)

/-- The keys of an observation dict (next_obs_dict.keys()). -/
def obsKeys (d : ObsDict) : List AgentId := d.map (fun p => p.1)

/-- episode_rewards[env_idx][agent_id] += reward, inserting 0 first when the key
is new (vectorized.py lines 332-335 and 479-482). -/
def rewAdd : RewDict → AgentId → Rat → RewDict
  | [], a, r => [(a, r)]
  | (b, s) :: t, a, r => if b = a then (b, s + r) :: t else (b, s) :: rewAdd t a r

/-- Fold one step reward dict into the per-slot accumulator. -/
def accumRewards (acc : RewDict) (rd : RewDict) : RewDict :=
  rd.foldl (fun s p => rewAdd s p.1 p.2) acc

/-- sum(d.values()). -/
def sumVals (d : RewDict) : Rat := (d.map (fun p => p.2)).sum

/-- The accumulator of a whole episode given its per-step reward dicts. -/
def episodeAccum (steps : List RewDict) : RewDict := steps.foldl accumRewards []

/-- All agent ids mentioned by an episode, with repetitions. -/
def allKeys : List RewDict → List AgentId
  | [] => []
  | d :: t => keysOf d ++ allKeys t

/-- The mean episode reward the spec describes: the sum over the steps of every
reward, divided by the number of distinct agent ids seen, 0 when none was. -/
def episodeMeanReward (steps : List RewDict) : Rat :=
  if (allKeys steps).dedup.length = 0 then 0
  else (steps.map sumVals).sum / ((allKeys steps).dedup.length : Rat)

/-- State mutators; only FixedTeamSizeMutator is ever inspected by the coordinator. -/
inductive Mutator where
  | fixedTeamSize (blue_size orange_size : Nat)
  | otherMutator (tag : Nat)
deriving DecidableEq

/-- isinstance(m, FixedTeamSizeMutator). -/
def Mutator.isFixedTeamSize : Mutator → Bool
  | .fixedTeamSize _ _ => true
  | .otherMutator _ => false

/-- A curriculum configuration dict: the optional required_agents entry, the
state_mutator entry (through its .mutators list) and the remaining key-value
pairs, which the coordinator never inspects. -/
structure Config where
  required_agents : Option Nat
  state_mutator : List Mutator
  extra : List (String × Nat)
deriving DecidableEq

/-- VectorizedEnv._make_config_picklable (vectorized.py lines 289-305): copy the
dict and force a required_agents entry, from the first FixedTeamSizeMutator of
state_mutator.mutators, or 1 when there is none. -/
def make_config_picklable (config : Config) : Config :=
  if config.required_agents.isSome then config
  else
    match config.state_mutator.filter Mutator.isFixedTeamSize with
    | Mutator.fixedTeamSize b o :: _ => { config with required_agents := some (b + o) }
    | _ => { config with required_agents := some 1 }

/-- In process mode the constructor runs every slot configuration through
make_config_picklable before storing it (vectorized.py lines 216-219). -/
def initProcessConfigs (cfgs : List Config) : List Config :=
  cfgs.map make_config_picklable

/-- The per-slot fields of the coordinator (spec: Environment Slot). -/
structure SlotState where
  obs : ObsDict
  done : Bool
  count : Nat
  rew : RewDict
  succ : Bool
  tmo : Bool
  config : Option Config
deriving DecidableEq

/-- The coordinator state: one entry per slot in each list. -/
structure VecState where
  num_envs : Nat
  obs_dicts : List ObsDict
  dones : List Bool
  episode_counts : List Nat
  episode_rewards : List RewDict
  episode_successes : List Bool
  episode_timeouts : List Bool
  curriculum_configs : List (Option Config)
deriving DecidableEq

/-- Every per-slot list has exactly num_envs entries. -/
def wf (st : VecState) : Prop :=
  st.obs_dicts.length = st.num_envs ∧ st.dones.length = st.num_envs ∧
  st.episode_counts.length = st.num_envs ∧ st.episode_rewards.length = st.num_envs ∧
  st.episode_successes.length = st.num_envs ∧ st.episode_timeouts.length = st.num_envs ∧
  st.curriculum_configs.length = st.num_envs

instance (st : VecState) : Decidable (wf st) := by unfold wf; infer_instance

/-- The slot-i view of the coordinator state. -/
def readSlot (st : VecState) (i : Nat) : SlotState :=
  ⟨st.obs_dicts.getD i [], st.dones.getD i false, st.episode_counts.getD i 0,
   st.episode_rewards.getD i [], st.episode_successes.getD i false,
   st.episode_timeouts.getD i false, st.curriculum_configs.getD i none⟩

/-- Write the slot-i view back; only index i of each list is touched. -/
def writeSlot (st : VecState) (i : Nat) (s : SlotState) : VecState :=
  { st with
    obs_dicts := st.obs_dicts.set i s.obs,
    dones := st.dones.set i s.done,
    episode_counts := st.episode_counts.set i s.count,
    episode_rewards := st.episode_rewards.set i s.rew,
    episode_successes := st.episode_successes.set i s.succ,
    episode_timeouts := st.episode_timeouts.set i s.tmo,
    curriculum_configs := st.curriculum_configs.set i s.config }

/-- config.get("required_agents", len(next_obs_dict)), with len(next_obs_dict)
when the slot has no configuration (vectorized.py lines 363-368 and 487-492). -/
def requiredFor (config : Option Config) (so : StepOut) : Nat :=
  match config with
  | none => so.obs.length
  | some c => c.required_agents.getD so.obs.length

/-- Metrics submitted to CurriculumManager.update_progression_stats. -/
structure Metrics where
  success : Bool
  timeout : Bool
  episode_reward : Rat
deriving DecidableEq

/-- Commands the coordinator sends over a worker channel. -/
inductive Cmd where
  | step
  | set_curriculum (c : Config)
  | reset
  | reset_action_stacker (a : AgentId)
  | closeCmd
deriving DecidableEq

/-- The coordinator-side reset retry loop of process mode (vectorized.py lines
526-535): up to 3 attempts, accepting the first response whose length matches
required; the second component counts the reset commands sent. -/
def resetLoop (reset_outs : Nat → ObsDict) (required : Nat) : Option ObsDict × Nat :=
  if (reset_outs 0).length = required then (some (reset_outs 0), 1)
  else if (reset_outs 1).length = required then (some (reset_outs 1), 2)
  else if (reset_outs 2).length = required then (some (reset_outs 2), 3)
  else (none, 3)

/-- What the external world answers for one slot during one step call: the
worker response to the step command, the responses to the k-th reset request,
and the configuration the curriculum manager returns for the next episode. -/
structure SlotScript where
  step_out : StepOut
  reset_outs : Nat → ObsDict
  new_config : Config

/-- The outcome of processing one slot: its new view, the metrics submitted for
it, and the commands sent to its worker after the initial step command. -/
structure SlotResult where
  s : SlotState
  mets : List Metrics
  cmds : List Cmd

/-- Process-mode handling of one received slot result (vectorized.py lines
472-551), acting on the slot-i view only: accumulate rewards when a curriculum
manager is present, recompute the done flag, classify the episode, report
metrics and install the new configuration, bump the episode count, run the
reset retry loop against the required count taken from the configuration that
was in place before the update, clear the bookkeeping. -/
def processSlotLocal (hasCM hasStacker : Bool) (s : SlotState) (sc : SlotScript) :
    SlotResult :=
  let so := sc.step_out
  let s := if hasCM then { s with rew := accumRewards s.rew so.rewards } else s
  let done := anyFlag so.terminated || anyFlag so.truncated
  let s := { s with done := done }
  let required := requiredFor s.config so
  if done then
    let succ := anyFlag so.terminated
    let s := { s with succ := succ, tmo := anyFlag so.truncated && !succ }
    let cm := if hasCM then
        let avg : Rat := if 0 < s.rew.length then sumVals s.rew / (s.rew.length : Rat) else 0
        let ncfg := make_config_picklable sc.new_config
        ({ s with config := some ncfg }, [Metrics.mk s.succ s.tmo avg],
         [Cmd.set_curriculum ncfg])
      else (s, [], [])
    let s := cm.1
    let s := { s with count := s.count + 1 }
    let rl := resetLoop sc.reset_outs required
    let s := match rl.1 with
      | some o => { s with obs := o }
      | none => s
    let cmds2 := if hasStacker then (obsKeys so.obs).map Cmd.reset_action_stacker else []
    let s := { s with rew := [], succ := false, tmo := false }
    ⟨s, cm.2.1, cm.2.2 ++ List.replicate rl.2 Cmd.reset ++ cmds2⟩
  else
    ⟨{ s with obs := so.obs }, [], []⟩

/-- The state effect of processing one slot in process mode. -/
def processSlot (hasCM hasStacker : Bool) (st : VecState) (i : Nat) (sc : SlotScript) :
    VecState :=
  writeSlot st i (processSlotLocal hasCM hasStacker (readSlot st i) sc).s

/-- Accumulator of the processing loop over the slots. -/
structure FoldAcc where
  st : VecState
  mets : List (Nat × Metrics)
  cmds : List (Nat × Cmd)
  results : List StepOut

/-- One iteration of the process-mode result collection loop (slot i). -/
def procStep (hasCM hasStacker : Bool) (scs : Nat → SlotScript) (acc : FoldAcc) (i : Nat) :
    FoldAcc :=
  let r := processSlotLocal hasCM hasStacker (readSlot acc.st i) (scs i)
  { st := writeSlot acc.st i r.s,
    mets := acc.mets ++ r.mets.map (fun m => (i, m)),
    cmds := acc.cmds ++ r.cmds.map (fun c => (i, c)),
    results := acc.results ++ [(scs i).step_out] }

/-- What the Python step call returns: the per-slot step tuples and copies of
the done-flag and episode-count vectors (vectorized.py line 555). -/
structure StepReturn where
  processed_results : List StepOut
  dones : List Bool
  episode_counts : List Nat
deriving DecidableEq

/-- The full observable outcome of a process-mode step call. -/
structure ProcOut where
  ret : StepReturn
  state : VecState
  mets : List (Nat × Metrics)
  cmds : List (Nat × Cmd)

/-- VectorizedEnv.step, process mode (vectorized.py lines 464-555): send a step
command to every worker, then process the slot responses in channel order. -/
def stepProcess (hasCM hasStacker : Bool) (st : VecState) (scs : Nat → SlotScript) :
    ProcOut :=
  let z := (List.range st.num_envs).foldl (procStep hasCM hasStacker scs) ⟨st, [], [], []⟩
  { ret := ⟨z.results, z.st.dones, z.st.episode_counts⟩,
    state := z.st,
    mets := z.mets,
    cmds := (List.range st.num_envs).map (fun j => (j, Cmd.step)) ++ z.cmds }

/-- Python exceptions the embedding distinguishes. -/
inductive PyErr where
  | nameError
  | brokenPipe
  | eofError
  | osError
deriving DecidableEq

/-- The _step_env reward accumulation for one slot (vectorized.py lines 330-335). -/
def threadRewardAccum (st : VecState) (i : Nat) (rd : RewDict) : VecState :=
  writeSlot st i { readSlot st i with rew := accumRewards (readSlot st i).rew rd }

/-- VectorizedEnv.step, thread mode (vectorized.py lines 342-462): submit
_step_env for every slot with a non-empty action mapping, join the futures,
sort the results by slot index, then process them.  The first processed result
assigns dones[env_idx] and then executes
  config = self.curriculum_configs[i]
where "i" was bound only inside the list comprehension that built futures and
is therefore unbound here: Python 3 raises NameError, carrying the mutated
state with it.  With no submitted future the loop body never runs and the call
returns an empty result list. -/
def stepThread (hasCM : Bool) (st : VecState) (hasActions : Nat → Bool)
    (sim : Nat → StepOut) : Except (PyErr × VecState) (StepReturn × VecState) :=
  let idxs := (List.range st.num_envs).filter hasActions
  let st1 := if hasCM then
      idxs.foldl (fun s i => threadRewardAccum s i (sim i).rewards) st
    else st
  match idxs with
  | [] => .ok (⟨[], st1.dones, st1.episode_counts⟩, st1)
  | i0 :: _ =>
      let so := sim i0
      let done := anyFlag so.terminated || anyFlag so.truncated
      let st2 := writeSlot st1 i0 { readSlot st1 i0 with done := done }
      .error (PyErr.nameError, st2)

/-- Execution modes, chosen once at construction. -/
inductive Mode where
  | thread
  | multiprocess
deriving DecidableEq

/-- VectorizedEnv.force_env_reset (vectorized.py lines 557-573): the whole body
is guarded by mode == "thread"; in thread mode the slot environment is closed,
rebuilt from the stored configuration and reset, and the fresh observations are
stored.  resetObs stands for what the rebuilt environment returns from reset.
The second component lists the worker commands sent: none in either mode. -/
def force_env_reset (mode : Mode) (st : VecState) (env_idx : Nat) (resetObs : ObsDict) :
    VecState × List (Nat × Cmd) :=
  match mode with
  | .thread => ({ st with obs_dicts := st.obs_dicts.set env_idx resetObs }, [])
  | .multiprocess => (st, [])

/-- Coordinator-side channel states. -/
inductive ChanState where
  | live
  | closedChan
  | broken
deriving DecidableEq

/-- Connection.send of the close command: fine on a live channel; a broken pipe
raises BrokenPipeError; a channel this process itself already closed raises
OSError (CPython checks the closed flag before writing), which the code does
not tolerate. -/
def sendCloseErr : ChanState → Option PyErr
  | .live => none
  | .broken => some PyErr.brokenPipe
  | .closedChan => some PyErr.osError

/-- The attribute surface VectorizedEnv.close inspects with hasattr, plus the
per-channel states in process mode. -/
structure CloseEnv where
  mode_thread : Bool
  has_executor : Bool
  has_envs : Bool
  has_remotes : Bool
  has_processes : Bool
  remotes : List ChanState
deriving DecidableEq

/-- VectorizedEnv.close (vectorized.py lines 575-607).  Thread mode shuts the
executor down (idempotent) and closes every environment; both are modelled as
non-raising.  Process mode sends a close command to every channel, tolerating
only BrokenPipeError and EOFError, then joins / terminates the workers, then
closes every channel under a bare except; a send that raises anything else
aborts close with that error.  Missing attributes are skipped. -/
def close_ (e : CloseEnv) : Except PyErr CloseEnv :=
  if e.mode_thread then
    .ok e
  else
    let sendErr := if e.has_remotes then
        e.remotes.findSome? (fun c =>
          match sendCloseErr c with
          | some PyErr.brokenPipe => none
          | some PyErr.eofError => none
          | some er => some er
          | none => none)
      else none
    match sendErr with
    | some er => .error er
    | none =>
        let rs := if e.has_remotes then e.remotes.map (fun _ => ChanState.closedChan)
          else e.remotes
        .ok { e with remotes := rs }

/-- The worker-side reset retry loop (vectorized.py lines 96-107): attempt
env.reset() with `attempt` as the current index; on an error before the third
attempt move on to the next one, on the third re-raise.  The fuel is 3 at the
top call and only decreases. -/
def workerResetTry (a : Nat → Except Unit ObsDict) : Nat → Nat → Except Unit ObsDict
  | _, 0 => .error ()
  | attempt, fuel + 1 =>
      match a attempt with
      | .ok o => .ok o
      | .error e => if attempt = 2 then .error e else workerResetTry a (attempt + 1) fuel

/-- What one reset command does to the worker loop. -/
structure WorkerStep where
  response : Option ObsDict
  loopContinues : Bool
deriving DecidableEq

/-- The worker handling of a reset command (vectorized.py lines 91-121 and
161-167): when some attempt succeeds the observation dict is sent and the loop
continues; when the third attempt raises, the error escapes to the outer
handler, which logs it and breaks the loop, so no response is ever sent. -/
def workerHandleReset (a : Nat → Except Unit ObsDict) : WorkerStep :=
  match workerResetTry a 0 3 with
  | .ok o => ⟨some o, true⟩
  | .error _ => ⟨none, false⟩

/-- The first of the (at most 3) reset attempts that succeeds. -/
def firstResetSuccess (a : Nat → Except Unit ObsDict) : Option ObsDict :=
  (List.range 3).findSome? (fun k => (a k).toOption)

/-- select.select([remote], [], [], 30) as the constructor calls it: the ready
channels (empty when the worker sent nothing within the timeout) and the two
always-empty lists (vectorized.py line 270). -/
def selectResult (ready : List Nat) : List Nat × List Nat × List Nat := (ready, [], [])

/-- Python truthiness of the value select.select returns: bool(t) of a tuple is
len(t) > 0, and this tuple has length 3 whatever its components hold, so it is
True even when every ready list is empty. -/
def pyTruthyTriple (_t : List Nat × List Nat × List Nat) : Bool := true

/-- Whether a worker delivers its initial reset observations within the 30
second select timeout. -/
inductive WorkerResp where
  | ready (obs : ObsDict)
  | timedOut
deriving DecidableEq

/-- One iteration of the constructor loop collecting initial observations in
process mode (vectorized.py lines 267-283).  The code branches on the
truthiness of the whole select triple; only in the (dead) else branch does it
store an empty dict and send a close command.  In the then branch it calls
remote.recv(), which blocks forever when the worker never responds: that
outcome is `none`.  `some (obs, closeSent)` is a completed iteration. -/
def initCollectSlot (w : WorkerResp) : Option (ObsDict × Bool) :=
  if pyTruthyTriple (selectResult (match w with | .ready _ => [0] | .timedOut => [])) then
    match w with
    | .ready obs => some (obs, false)
    | .timedOut => none
  else
    some ([], true)

lemma getD_set_ne {α : Type} (l : List α) (i j : Nat) (x d : α) (h : i ≠ j) :
    (l.set i x).getD j d = l.getD j d := by
  rw [List.getD_eq_getElem?_getD, List.getD_eq_getElem?_getD, List.getElem?_set_ne h]

lemma getD_set_self {α : Type} (l : List α) (i : Nat) (x d : α) (h : i < l.length) :
    (l.set i x).getD i d = x := by
  rw [List.getD_eq_getElem?_getD, List.getElem?_set_eq_of_lt x h]
  rfl

lemma readSlot_writeSlot_ne (st : VecState) (i j : Nat) (s : SlotState) (h : i ≠ j) :
    readSlot (writeSlot st i s) j = readSlot st j := by
  simp only [readSlot, writeSlot, getD_set_ne _ _ _ _ _ h]

lemma readSlot_writeSlot_self (st : VecState) (i : Nat) (s : SlotState)
    (hw : wf st) (hi : i < st.num_envs) : readSlot (writeSlot st i s) i = s := by
  obtain ⟨h1, h2, h3, h4, h5, h6, h7⟩ := hw
  simp only [readSlot, writeSlot]
  rw [getD_set_self _ _ _ _ (by omega), getD_set_self _ _ _ _ (by omega),
    getD_set_self _ _ _ _ (by omega), getD_set_self _ _ _ _ (by omega),
    getD_set_self _ _ _ _ (by omega), getD_set_self _ _ _ _ (by omega),
    getD_set_self _ _ _ _ (by omega)]

lemma num_envs_writeSlot (st : VecState) (i : Nat) (s : SlotState) :
    (writeSlot st i s).num_envs = st.num_envs := rfl

lemma wf_writeSlot (st : VecState) (i : Nat) (s : SlotState) (hw : wf st) :
    wf (writeSlot st i s) := by
  obtain ⟨h1, h2, h3, h4, h5, h6, h7⟩ := hw
  refine ⟨?_, ?_, ?_, ?_, ?_, ?_, ?_⟩ <;> simp [writeSlot, h1, h2, h3, h4, h5, h6, h7]

lemma resetLoop_fst_length (ro : Nat → ObsDict) (required : Nat) (o : ObsDict)
    (h : (resetLoop ro required).1 = some o) : o.length = required := by
  unfold resetLoop at h
  split at h
  · exact Option.some_injective _ h ▸ (by assumption)
  · split at h
    · exact Option.some_injective _ h ▸ (by assumption)
    · split at h
      · exact Option.some_injective _ h ▸ (by assumption)
      · simp at h

lemma filter_tag_map_ne {β : Type} (k j : Nat) (h : k ≠ j) (r : List β) :
    (r.map (fun m => (k, m))).filter (fun p => p.1 == j) = [] := by
  induction r with
  | nil => rfl
  | cons x t ih => simp only [List.map_cons, List.filter_cons]; simp [h, ih]

lemma filter_tag_map_self {β : Type} (j : Nat) (r : List β) :
    (r.map (fun m => (j, m))).filter (fun p => p.1 == j) = r.map (fun m => (j, m)) := by
  induction r with
  | nil => rfl
  | cons x t ih => simp only [List.map_cons, List.filter_cons]; simp [ih]

lemma foldl_procStep_frame (hasCM hasStacker : Bool) (scs : Nat → SlotScript) (j : Nat) :
    ∀ (L : List Nat) (acc : FoldAcc), (∀ k ∈ L, k ≠ j) →
      readSlot ((L.foldl (procStep hasCM hasStacker scs) acc).st) j = readSlot acc.st j := by
  intro L
  induction L with
  | nil => intro acc _; rfl
  | cons k t ih =>
      intro acc h
      rw [List.foldl_cons, ih _ (fun m hm => h m (List.mem_cons_of_mem _ hm))]
      exact readSlot_writeSlot_ne _ _ _ _ (h k (List.mem_cons_self _ _))

lemma foldl_procStep_wf (hasCM hasStacker : Bool) (scs : Nat → SlotScript) :
    ∀ (L : List Nat) (acc : FoldAcc), wf acc.st →
      wf ((L.foldl (procStep hasCM hasStacker scs) acc).st) ∧
      ((L.foldl (procStep hasCM hasStacker scs) acc).st).num_envs = acc.st.num_envs := by
  intro L
  induction L with
  | nil => intro acc h; exact ⟨h, rfl⟩
  | cons k t ih =>
      intro acc h
      rw [List.foldl_cons]
      have := ih (procStep hasCM hasStacker scs acc k) (wf_writeSlot _ _ _ h)
      exact ⟨this.1, this.2.trans rfl⟩

lemma foldl_procStep_mets_frame (hasCM hasStacker : Bool) (scs : Nat → SlotScript) (j : Nat) :
    ∀ (L : List Nat) (acc : FoldAcc), (∀ k ∈ L, k ≠ j) →
      ((L.foldl (procStep hasCM hasStacker scs) acc).mets).filter (fun p => p.1 == j)
        = acc.mets.filter (fun p => p.1 == j) := by
  intro L
  induction L with
  | nil => intro acc _; rfl
  | cons k t ih =>
      intro acc h
      rw [List.foldl_cons, ih _ (fun m hm => h m (List.mem_cons_of_mem _ hm))]
      show (acc.mets ++ _).filter _ = _
      rw [List.filter_append, filter_tag_map_ne _ _ (h k (List.mem_cons_self _ _)),
        List.append_nil]

lemma foldl_procStep_cmds_frame (hasCM hasStacker : Bool) (scs : Nat → SlotScript) (j : Nat) :
    ∀ (L : List Nat) (acc : FoldAcc), (∀ k ∈ L, k ≠ j) →
      ((L.foldl (procStep hasCM hasStacker scs) acc).cmds).filter (fun p => p.1 == j)
        = acc.cmds.filter (fun p => p.1 == j) := by
  intro L
  induction L with
  | nil => intro acc _; rfl
  | cons k t ih =>
      intro acc h
      rw [List.foldl_cons, ih _ (fun m hm => h m (List.mem_cons_of_mem _ hm))]
      show (acc.cmds ++ _).filter _ = _
      rw [List.filter_append, filter_tag_map_ne _ _ (h k (List.mem_cons_self _ _)),
        List.append_nil]

lemma procStep_st (hasCM hasStacker : Bool) (scs : Nat → SlotScript) (acc : FoldAcc)
    (i : Nat) : (procStep hasCM hasStacker scs acc i).st
      = writeSlot acc.st i (processSlotLocal hasCM hasStacker (readSlot acc.st i) (scs i)).s :=
  rfl

lemma procStep_mets (hasCM hasStacker : Bool) (scs : Nat → SlotScript) (acc : FoldAcc)
    (i : Nat) : (procStep hasCM hasStacker scs acc i).mets
      = acc.mets ++ (processSlotLocal hasCM hasStacker (readSlot acc.st i) (scs i)).mets.map
          (fun m => (i, m)) :=
  rfl

lemma procStep_cmds (hasCM hasStacker : Bool) (scs : Nat → SlotScript) (acc : FoldAcc)
    (i : Nat) : (procStep hasCM hasStacker scs acc i).cmds
      = acc.cmds ++ (processSlotLocal hasCM hasStacker (readSlot acc.st i) (scs i)).cmds.map
          (fun c => (i, c)) :=
  rfl

lemma foldl_procStep_at (hasCM hasStacker : Bool) (scs : Nat → SlotScript) :
    ∀ (n : Nat) (acc : FoldAcc) (i : Nat), i < n → wf acc.st → n ≤ acc.st.num_envs →
      readSlot ((List.range n).foldl (procStep hasCM hasStacker scs) acc).st i
        = (processSlotLocal hasCM hasStacker (readSlot acc.st i) (scs i)).s
    ∧ ((List.range n).foldl (procStep hasCM hasStacker scs) acc).mets.filter
          (fun p => p.1 == i)
        = acc.mets.filter (fun p => p.1 == i)
          ++ (processSlotLocal hasCM hasStacker (readSlot acc.st i) (scs i)).mets.map
              (fun m => (i, m))
    ∧ ((List.range n).foldl (procStep hasCM hasStacker scs) acc).cmds.filter
          (fun p => p.1 == i)
        = acc.cmds.filter (fun p => p.1 == i)
          ++ (processSlotLocal hasCM hasStacker (readSlot acc.st i) (scs i)).cmds.map
              (fun c => (i, c)) := by
  intro n
  induction n with
  | zero => intro acc i hi; omega
  | succ n ih =>
      intro acc i hi hw hn
      rw [List.range_succ, List.foldl_append, List.foldl_cons, List.foldl_nil]
      by_cases hin : i = n
      · subst hin
        have hframe := foldl_procStep_frame hasCM hasStacker scs i (List.range i) acc
          (fun k hk => by have := List.mem_range.mp hk; omega)
        have hwfZ := foldl_procStep_wf hasCM hasStacker scs (List.range i) acc hw
        have hmets := foldl_procStep_mets_frame hasCM hasStacker scs i (List.range i) acc
          (fun k hk => by have := List.mem_range.mp hk; omega)
        have hcmds := foldl_procStep_cmds_frame hasCM hasStacker scs i (List.range i) acc
          (fun k hk => by have := List.mem_range.mp hk; omega)
        refine ⟨?_, ?_, ?_⟩
        · rw [procStep_st,
            readSlot_writeSlot_self _ _ _ hwfZ.1 (by rw [hwfZ.2]; omega), hframe]
        · rw [procStep_mets, List.filter_append, filter_tag_map_self, hmets, hframe]
        · rw [procStep_cmds, List.filter_append, filter_tag_map_self, hcmds, hframe]
      · have hi' : i < n := by omega
        have ihh := ih acc i hi' hw (by omega)
        have hne : n ≠ i := fun h => hin h.symm
        refine ⟨?_, ?_, ?_⟩
        · rw [procStep_st, readSlot_writeSlot_ne _ _ _ _ hne]
          exact ihh.1
        · rw [procStep_mets, List.filter_append, filter_tag_map_ne _ _ hne,
            List.append_nil]
          exact ihh.2.1
        · rw [procStep_cmds, List.filter_append, filter_tag_map_ne _ _ hne,
            List.append_nil]
          exact ihh.2.2

lemma teamCount_filter_find (ms : List Mutator) :
    (match ms.filter Mutator.isFixedTeamSize with
     | Mutator.fixedTeamSize b o :: _ => b + o
     | _ => 1)
    = (match ms.find? Mutator.isFixedTeamSize with
     | some (Mutator.fixedTeamSize b o) => b + o
     | _ => 1) := by
  induction ms with
  | nil => rfl
  | cons m t ih =>
      cases m with
      | fixedTeamSize b o =>
          simp [List.filter_cons, List.find?_cons, Mutator.isFixedTeamSize]
      | otherMutator tag =>
          simpa [List.filter_cons, List.find?_cons, Mutator.isFixedTeamSize] using ih

lemma make_config_picklable_required_none (c : Config) (h : c.required_agents = none) :
    (make_config_picklable c).required_agents
      = some (match c.state_mutator.find? Mutator.isFixedTeamSize with
              | some (Mutator.fixedTeamSize b o) => b + o
              | _ => 1) := by
  unfold make_config_picklable
  rw [h, ← teamCount_filter_find]
  cases hf : c.state_mutator.filter Mutator.isFixedTeamSize with
  | nil => simp
  | cons m t => cases m <;> simp

lemma make_config_picklable_isSome (c : Config) :
    (make_config_picklable c).required_agents.isSome = true := by
  cases hr : c.required_agents with
  | some n => unfold make_config_picklable; rw [hr]; simp [hr]
  | none => rw [make_config_picklable_required_none c hr]; rfl

/-- C9: force_env_reset called in process mode returns normally, leaves the whole
coordinator state (obs_dicts, dones, episode_counts, curriculum_configs and the
rest) unchanged, and sends no command to any worker; the destroy-rebuild-reset
recovery runs only in thread mode, where it stores the fresh reset observations. -/
theorem c9_force_env_reset_process_noop (st : VecState) (env_idx : Nat)
    (resetObs : ObsDict) :
    force_env_reset Mode.multiprocess st env_idx resetObs = (st, [])
    ∧ (force_env_reset Mode.thread st env_idx resetObs).1.obs_dicts
        = st.obs_dicts.set env_idx resetObs :=
  ⟨rfl, rfl⟩

/-- C10: _make_config_picklable keeps every entry of the input configuration and
guarantees a required_agents entry: kept when present, otherwise blue_size +
orange_size of the first FixedTeamSizeMutator of state_mutator.mutators, or 1
when there is none; hence every configuration stored through the process-mode
construction path has the entry. -/
theorem c10_make_config_picklable (c : Config) :
    (make_config_picklable c).state_mutator = c.state_mutator
    ∧ (make_config_picklable c).extra = c.extra
    ∧ (∀ n, c.required_agents = some n →
        (make_config_picklable c).required_agents = some n)
    ∧ (c.required_agents = none → ∀ b o,
        c.state_mutator.find? Mutator.isFixedTeamSize = some (Mutator.fixedTeamSize b o) →
        (make_config_picklable c).required_agents = some (b + o))
    ∧ (c.required_agents = none →
        c.state_mutator.find? Mutator.isFixedTeamSize = none →
        (make_config_picklable c).required_agents = some 1)
    ∧ (make_config_picklable c).required_agents.isSome = true
    ∧ ∀ (cfgs : List Config), ∀ c' ∈ initProcessConfigs cfgs,
        c'.required_agents.isSome = true := by
  refine ⟨?_, ?_, ?_, ?_, ?_, make_config_picklable_isSome c, ?_⟩
  · unfold make_config_picklable
    split
    · rfl
    · cases hf : c.state_mutator.filter Mutator.isFixedTeamSize with
      | nil => simp
      | cons m t => cases m <;> simp
  · unfold make_config_picklable
    split
    · rfl
    · cases hf : c.state_mutator.filter Mutator.isFixedTeamSize with
      | nil => simp
      | cons m t => cases m <;> simp
  · intro n hn
    unfold make_config_picklable
    rw [hn]
    simp [hn]
  · intro hn b o hfind
    rw [make_config_picklable_required_none c hn, hfind]
  · intro hn hfind
    rw [make_config_picklable_required_none c hn, hfind]
  · intro cfgs c' hc'
    obtain ⟨x, _, rfl⟩ := List.mem_map.mp hc'
    exact make_config_picklable_isSome x

/-- C10 witness: at a concrete configuration missing required_agents, the first
FixedTeamSizeMutator (1 blue, 2 orange) decides the forced entry. -/
theorem c10_make_config_picklable_witness :
    (make_config_picklable
        ⟨none, [Mutator.otherMutator 0, Mutator.fixedTeamSize 1 2,
                Mutator.fixedTeamSize 5 5], [("stage_name", 3)]⟩).required_agents
      = some 3 :=
  (c10_make_config_picklable _).2.2.2.1 rfl 1 2 (by decide)

/-- C8: on a reset command the worker retries env.reset up to 3 times on raised
errors; the response sent is the first successful attempt within those 3, and
when all 3 attempts fail no response is sent at all and the worker loop
terminates (the caller is left with an unresponsive channel). -/
theorem c8_worker_reset_retry (a : Nat → Except Unit ObsDict) :
    (workerHandleReset a).response = firstResetSuccess a
    ∧ (workerHandleReset a).loopContinues = (firstResetSuccess a).isSome := by
  have hr : List.range 3 = [0, 1, 2] := rfl
  rcases h0 : a 0 with e0 | o0 <;> rcases h1 : a 1 with e1 | o1 <;>
    rcases h2 : a 2 with e2 | o2 <;>
    simp [workerHandleReset, workerResetTry, firstResetSuccess, hr, h0, h1, h2,
      Except.toOption, List.findSome?_cons]

/-- C8 witness: with the first attempt failing and the second succeeding, the
worker responds with the second attempt's observations. -/
theorem c8_worker_reset_retry_witness :
    (workerHandleReset
        (fun k => if k = 0 then Except.error () else Except.ok [(0, 1)])).response
      = firstResetSuccess (fun k => if k = 0 then Except.error () else Except.ok [(0, 1)]) :=
  (c8_worker_reset_retry _).1

/-- C7: during process-mode construction the timeout fallback is dead code: the
value select.select returns is a 3-tuple, which is truthy even when no channel
is ready, so for a worker that never responds the coordinator blocks in recv
(none) instead of storing an empty observation mapping and sending close. -/
theorem c7_init_timeout_fallback_dead :
    initCollectSlot WorkerResp.timedOut = none
    ∧ pyTruthyTriple (selectResult []) = true
    ∧ initCollectSlot WorkerResp.timedOut ≠ some ([], true) := by
  decide

/-- C6 counterexample: in process mode a second close raises OSError, because
the first close closed every channel and sending the close command to a closed
channel raises an error the except clause does not tolerate. -/
theorem c6_close_twice_counterexample :
    Except.bind (close_ ⟨false, false, false, true, true, [ChanState.live]⟩) close_
      = Except.error PyErr.osError := by
  rfl

/-- C6 amended: calling close twice never raises in thread mode, and in process
mode a close on a coordinator whose channels were never created skips the
missing pieces silently and stays idempotent; only a process-mode second close
over channels the first close closed raises (OSError from send on a closed
channel, outside the tolerated BrokenPipeError / EOFError). -/
theorem c6_close_idempotent_cases (e : CloseEnv) :
    (e.mode_thread = true → Except.bind (close_ e) close_ = Except.ok e)
    ∧ (e.mode_thread = false → e.has_remotes = false →
        Except.bind (close_ e) close_ = Except.ok e) := by
  constructor
  · intro h
    obtain ⟨mt, hex, hev, hrm, hpr, rs⟩ := e
    subst h
    rfl
  · intro h hr
    obtain ⟨mt, hex, hev, hrm, hpr, rs⟩ := e
    subst h
    subst hr
    rfl

/-- C6 witness: a thread-mode coordinator and a process-mode coordinator with
no channels both survive two close calls. -/
theorem c6_close_idempotent_witness :
    Except.bind (close_ ⟨true, true, true, false, false, []⟩) close_
        = Except.ok ⟨true, true, true, false, false, []⟩
    ∧ Except.bind (close_ ⟨false, false, false, false, false, []⟩) close_
        = Except.ok ⟨false, false, false, false, false, []⟩ :=
  ⟨(c6_close_idempotent_cases _).1 rfl, (c6_close_idempotent_cases _).2 rfl rfl⟩

/-- C5: slot isolation: processing slot i's step result in process mode, and
the thread-mode per-slot reward accumulation (the only coordinator state a
slot's task touches before the results loop), leave the retained observation
mapping, the episode reward accumulator and the done flag of every other slot
j unchanged; a slot whose simulation raises causes no coordinator update at
all for other slots beyond their own processing. -/
theorem c5_slot_isolation (hasCM hasStacker : Bool) (st : VecState) (i j : Nat)
    (sc : SlotScript) (rd : RewDict) (hij : j ≠ i) :
    ((processSlot hasCM hasStacker st i sc).obs_dicts.getD j [] = st.obs_dicts.getD j []
      ∧ (processSlot hasCM hasStacker st i sc).episode_rewards.getD j []
          = st.episode_rewards.getD j []
      ∧ (processSlot hasCM hasStacker st i sc).dones.getD j false = st.dones.getD j false)
    ∧ ((threadRewardAccum st i rd).obs_dicts.getD j [] = st.obs_dicts.getD j []
      ∧ (threadRewardAccum st i rd).episode_rewards.getD j []
          = st.episode_rewards.getD j []
      ∧ (threadRewardAccum st i rd).dones.getD j false = st.dones.getD j false) := by
  have hne : i ≠ j := fun h => hij h.symm
  refine ⟨⟨?_, ?_, ?_⟩, ?_, ?_, ?_⟩ <;> exact getD_set_ne _ _ _ _ _ hne

/-- C5 witness: stepping slot 0 of a two-slot coordinator leaves slot 1's
observation mapping untouched. -/
theorem c5_slot_isolation_witness :
    (processSlot true false
        ⟨2, [[(0, 5)], [(0, 6)]], [false, false], [0, 0], [[], []],
         [false, false], [false, false], [none, none]⟩ 0
        ⟨⟨[(0, 8)], [(0, 1)], [(0, false)], [(0, false)]⟩, fun _ => [],
         ⟨none, [], []⟩⟩).obs_dicts.getD 1 []
      = (⟨2, [[(0, 5)], [(0, 6)]], [false, false], [0, 0], [[], []],
         [false, false], [false, false], [none, none]⟩ : VecState).obs_dicts.getD 1 [] :=
  (c5_slot_isolation true false _ 0 1 _ [] (by decide)).1.1

/-- C1: a thread-mode step with a non-empty action mapping raises NameError at
the dead read of the comprehension-local variable i, after assigning the first
slot's done flag, so it never returns the claimed triple; the process-mode step
returns one entry per slot, entry i being exactly slot i's step output, with
the done-flag and episode-count vectors. -/
theorem c1_step_return_shape :
    stepThread true ⟨1, [[(0, 5)]], [false], [0], [[]], [false], [false], [none]⟩
        (fun _ => true) (fun _ => ⟨[(0, 7)], [(0, 2)], [(0, true)], [(0, false)]⟩)
      = Except.error (PyErr.nameError,
          ⟨1, [[(0, 5)]], [true], [0], [[(0, 2)]], [false], [false], [none]⟩)
    ∧ (stepProcess false false
        ⟨2, [[(0, 5)], [(0, 6)]], [false, false], [0, 0], [[], []],
         [false, false], [false, false], [none, none]⟩
        (fun i => if i = 0 then
            ⟨⟨[(0, 8)], [(0, 1)], [(0, false)], [(0, false)]⟩, fun _ => [], ⟨none, [], []⟩⟩
          else
            ⟨⟨[(0, 9)], [(0, 1)], [(0, true)], [(0, false)]⟩, fun _ => [(7, 1)],
             ⟨none, [], []⟩⟩)).ret
      = ⟨[⟨[(0, 8)], [(0, 1)], [(0, false)], [(0, false)]⟩,
          ⟨[(0, 9)], [(0, 1)], [(0, true)], [(0, false)]⟩],
         [false, true], [0, 1]⟩ := by
  exact ⟨rfl, rfl⟩

lemma resetLoop_exhausted (ro : Nat → ObsDict) (req : Nat)
    (h : ∀ k, k < 3 → (ro k).length ≠ req) : resetLoop ro req = (none, 3) := by
  unfold resetLoop
  rw [if_neg (h 0 (by omega)), if_neg (h 1 (by omega)), if_neg (h 2 (by omega))]

lemma processSlotLocal_done_obs (hasCM hasStacker : Bool) (s : SlotState) (sc : SlotScript)
    (hdone : (anyFlag sc.step_out.terminated || anyFlag sc.step_out.truncated) = true) :
    (processSlotLocal hasCM hasStacker s sc).s.obs
      = match (resetLoop sc.reset_outs (requiredFor s.config sc.step_out)).1 with
        | some o => o
        | none => s.obs := by
  cases hasCM <;>
    simp only [processSlotLocal, hdone, if_true, Bool.false_eq_true, if_false] <;>
    cases hrl : (resetLoop sc.reset_outs (requiredFor s.config sc.step_out)).1 <;>
    simp [hrl]

lemma processSlotLocal_done_mets (hasStacker : Bool) (s : SlotState) (sc : SlotScript)
    (hdone : (anyFlag sc.step_out.terminated || anyFlag sc.step_out.truncated) = true) :
    (processSlotLocal true hasStacker s sc).mets
      = [⟨anyFlag sc.step_out.terminated,
          anyFlag sc.step_out.truncated && !anyFlag sc.step_out.terminated,
          if 0 < (accumRewards s.rew sc.step_out.rewards).length
          then sumVals (accumRewards s.rew sc.step_out.rewards)
                / ((accumRewards s.rew sc.step_out.rewards).length : Rat)
          else 0⟩] := by
  simp only [processSlotLocal, hdone, if_true]

lemma processSlotLocal_done_cmds_count (hasCM hasStacker : Bool) (s : SlotState)
    (sc : SlotScript)
    (hdone : (anyFlag sc.step_out.terminated || anyFlag sc.step_out.truncated) = true) :
    ((processSlotLocal hasCM hasStacker s sc).cmds).count Cmd.reset
      = (resetLoop sc.reset_outs (requiredFor s.config sc.step_out)).2 := by
  cases hasCM <;> cases hasStacker <;>
    simp only [processSlotLocal, hdone, if_true, Bool.false_eq_true, if_false] <;>
    cases hrl : (resetLoop sc.reset_outs (requiredFor s.config sc.step_out)).1 <;>
    simp [hrl, List.count_append, List.count_replicate, List.count_eq_zero,
      List.mem_map]

lemma stepProcess_state_at (hasCM hasStacker : Bool) (st : VecState)
    (scs : Nat → SlotScript) (i : Nat) (hi : i < st.num_envs) (hw : wf st) :
    readSlot (stepProcess hasCM hasStacker st scs).state i
      = (processSlotLocal hasCM hasStacker (readSlot st i) (scs i)).s :=
  (foldl_procStep_at hasCM hasStacker scs st.num_envs ⟨st, [], [], []⟩ i hi hw
    (Nat.le_refl _)).1

lemma stepProcess_mets_at (hasCM hasStacker : Bool) (st : VecState)
    (scs : Nat → SlotScript) (i : Nat) (hi : i < st.num_envs) (hw : wf st) :
    (stepProcess hasCM hasStacker st scs).mets.filter (fun p => p.1 == i)
      = (processSlotLocal hasCM hasStacker (readSlot st i) (scs i)).mets.map
          (fun m => (i, m)) := by
  have h := (foldl_procStep_at hasCM hasStacker scs st.num_envs ⟨st, [], [], []⟩ i hi hw
    (Nat.le_refl _)).2.1
  simpa using h

lemma filter_steps_ne (i : Nat) :
    ∀ (L : List Nat), (∀ k ∈ L, k ≠ i) →
      (L.map (fun j => (j, Cmd.step))).filter (fun p => p.1 == i) = [] := by
  intro L
  induction L with
  | nil => intro _; rfl
  | cons k t ih =>
      intro h
      simp only [List.map_cons, List.filter_cons]
      rw [ih (fun m hm => h m (List.mem_cons_of_mem _ hm))]
      simp [h k (List.mem_cons_self _ _)]

lemma filter_steps_range (n i : Nat) (hi : i < n) :
    ((List.range n).map (fun j => (j, Cmd.step))).filter (fun p => p.1 == i)
      = [(i, Cmd.step)] := by
  induction n with
  | zero => omega
  | succ n ih =>
      rw [List.range_succ, List.map_append, List.filter_append]
      by_cases hin : i = n
      · subst hin
        rw [filter_steps_ne i (List.range i)
          (fun k hk => by have := List.mem_range.mp hk; omega)]
        simp
      · rw [ih (by omega)]
        have : n ≠ i := fun h => hin h.symm
        simp [this]

lemma stepProcess_cmds_at (hasCM hasStacker : Bool) (st : VecState)
    (scs : Nat → SlotScript) (i : Nat) (hi : i < st.num_envs) (hw : wf st) :
    (stepProcess hasCM hasStacker st scs).cmds.filter (fun p => p.1 == i)
      = (i, Cmd.step) :: (processSlotLocal hasCM hasStacker (readSlot st i) (scs i)).cmds.map
          (fun c => (i, c)) := by
  have h := (foldl_procStep_at hasCM hasStacker scs st.num_envs ⟨st, [], [], []⟩ i hi hw
    (Nat.le_refl _)).2.2
  simp only [List.filter_nil, List.nil_append] at h
  show (((List.range st.num_envs).map fun j => (j, Cmd.step))
      ++ ((List.range st.num_envs).foldl (procStep hasCM hasStacker scs)
            ⟨st, [], [], []⟩).cmds).filter (fun p => p.1 == i) = _
  rw [List.filter_append, filter_steps_range st.num_envs i hi, h]
  rfl

/-- C2 counterexample: the reset validation uses the required-agent count of the
configuration in place before the curriculum update, not the newly installed
one.  With an old configuration requiring 1 agent and a new one requiring 2,
a reset response with 1 agent is accepted on the first attempt (no exhausted
retry), after which the retained observation mapping has 1 agent id while the
current configuration requires 2. -/
theorem c2_counterexample :
    ((stepProcess true false
        ⟨1, [[(0, 5)]], [false], [0], [[]], [false], [false],
         [some ⟨some 1, [], []⟩]⟩
        (fun _ => ⟨⟨[(0, 7)], [(0, 1)], [(0, true)], [(0, false)]⟩,
          fun _ => [(3, 9)], ⟨some 2, [], []⟩⟩)).state.obs_dicts.getD 0 []).length = 1
    ∧ (stepProcess true false
        ⟨1, [[(0, 5)]], [false], [0], [[]], [false], [false],
         [some ⟨some 1, [], []⟩]⟩
        (fun _ => ⟨⟨[(0, 7)], [(0, 1)], [(0, true)], [(0, false)]⟩,
          fun _ => [(3, 9)], ⟨some 2, [], []⟩⟩)).state.curriculum_configs.getD 0 none
      = some ⟨some 2, [], []⟩
    ∧ ¬ ((stepProcess true false
        ⟨1, [[(0, 5)]], [false], [0], [[]], [false], [false],
         [some ⟨some 1, [], []⟩]⟩
        (fun _ => ⟨⟨[(0, 7)], [(0, 1)], [(0, true)], [(0, false)]⟩,
          fun _ => [(3, 9)], ⟨some 2, [], []⟩⟩)).state.obs_dicts.getD 0 []).length = 2 := by
  decide

/-- C2 amended: immediately after a process-mode step call in which slot i
reported done returns, with the reset retry loop accepting a response within
its 3 attempts, the retained observation mapping of slot i has exactly as many
agent ids as the required-agent count derived from the configuration the slot
had when the step result was processed (before the curriculum manager
installed the new configuration), falling back to the step observation count
when that configuration is absent or carries no required_agents entry.  In
thread mode a step in which a slot reports done never returns normally (the
NameError of C1), so the postcondition is vacuous there. -/
theorem c2_auto_reset_postcondition (hasCM hasStacker : Bool) (st : VecState)
    (scs : Nat → SlotScript) (i : Nat) (hi : i < st.num_envs) (hw : wf st)
    (hdone : (anyFlag (scs i).step_out.terminated
        || anyFlag (scs i).step_out.truncated) = true)
    (hacc : (resetLoop (scs i).reset_outs
        (requiredFor (readSlot st i).config (scs i).step_out)).1.isSome = true) :
    ((stepProcess hasCM hasStacker st scs).state.obs_dicts.getD i []).length
      = requiredFor (readSlot st i).config (scs i).step_out := by
  have hs := stepProcess_state_at hasCM hasStacker st scs i hi hw
  have h2 : (stepProcess hasCM hasStacker st scs).state.obs_dicts.getD i []
      = (processSlotLocal hasCM hasStacker (readSlot st i) (scs i)).s.obs :=
    congrArg SlotState.obs hs
  rw [h2, processSlotLocal_done_obs hasCM hasStacker _ _ hdone]
  rcases ho : (resetLoop (scs i).reset_outs
      (requiredFor (readSlot st i).config (scs i).step_out)).1 with _ | o
  · rw [ho] at hacc
    simp at hacc
  · simp only [ho]
    exact resetLoop_fst_length _ _ _ ho

/-- C2 witness: a concrete done slot whose reset is accepted on the first
attempt satisfies the amended postcondition. -/
theorem c2_auto_reset_postcondition_witness :
    ((stepProcess true false
        ⟨1, [[(0, 5)]], [false], [0], [[]], [false], [false],
         [some ⟨some 1, [], []⟩]⟩
        (fun _ => ⟨⟨[(0, 7)], [(0, 1)], [(0, true)], [(0, false)]⟩,
          fun _ => [(3, 9)], ⟨some 2, [], []⟩⟩)).state.obs_dicts.getD 0 []).length
      = requiredFor
          (readSlot (⟨1, [[(0, 5)]], [false], [0], [[]], [false], [false],
            [some ⟨some 1, [], []⟩]⟩ : VecState) 0).config
          (⟨[(0, 7)], [(0, 1)], [(0, true)], [(0, false)]⟩ : StepOut) :=
  c2_auto_reset_postcondition true false _ _ 0 (by decide) (by decide) (by decide)
    (by decide)

/-- C3 counterexample: all 3 coordinator reset attempts return a mismatched
agent count (1 instead of the required 2), and afterwards the slot keeps its
previous retained observations, exactly 3 reset commands were sent and no
recreation-plus-extra-reset happened: a 4th reset would have returned a
matching 2-agent mapping, but it is never requested. -/
theorem c3_counterexample :
    (stepProcess false false
        ⟨1, [[(0, 5)]], [false], [0], [[]], [false], [false],
         [some ⟨some 2, [], []⟩]⟩
        (fun _ => ⟨⟨[(0, 7)], [(0, 1)], [(0, true)], [(0, false)]⟩,
          fun k => if k < 3 then [(3, 9)] else [(1, 1), (2, 2)],
          ⟨some 2, [], []⟩⟩)).state.obs_dicts.getD 0 [] = [(0, 5)]
    ∧ (((stepProcess false false
        ⟨1, [[(0, 5)]], [false], [0], [[]], [false], [false],
         [some ⟨some 2, [], []⟩]⟩
        (fun _ => ⟨⟨[(0, 7)], [(0, 1)], [(0, true)], [(0, false)]⟩,
          fun k => if k < 3 then [(3, 9)] else [(1, 1), (2, 2)],
          ⟨some 2, [], []⟩⟩)).cmds.filter (fun p => p.1 == 0)).map
            (fun p => p.2)).count Cmd.reset = 3
    ∧ ¬ ((stepProcess false false
        ⟨1, [[(0, 5)]], [false], [0], [[]], [false], [false],
         [some ⟨some 2, [], []⟩]⟩
        (fun _ => ⟨⟨[(0, 7)], [(0, 1)], [(0, true)], [(0, false)]⟩,
          fun k => if k < 3 then [(3, 9)] else [(1, 1), (2, 2)],
          ⟨some 2, [], []⟩⟩)).state.obs_dicts.getD 0 [] = [(1, 1), (2, 2)]) := by
  decide

/-- C3 amended: in process mode a done slot's reset is retried up to 3 times on
agent-count mismatch only (a raised reset error is retried inside the worker,
which sends no response when its own 3 attempts fail); when all 3 coordinator
attempts mismatch, exactly 3 reset commands were sent to that worker, the
retained observations stay unchanged, and no destroy-rebuild-reset occurs.  In
thread mode the corresponding recovery code (which rebuilds only when the
third attempt raises) is unreachable, because step raises NameError earlier. -/
theorem c3_reset_retry_exhaustion (hasCM hasStacker : Bool) (st : VecState)
    (scs : Nat → SlotScript) (i : Nat) (hi : i < st.num_envs) (hw : wf st)
    (hdone : (anyFlag (scs i).step_out.terminated
        || anyFlag (scs i).step_out.truncated) = true)
    (hmis : ∀ k, k < 3 → ((scs i).reset_outs k).length
        ≠ requiredFor (readSlot st i).config (scs i).step_out) :
    (stepProcess hasCM hasStacker st scs).state.obs_dicts.getD i []
      = st.obs_dicts.getD i []
    ∧ (((stepProcess hasCM hasStacker st scs).cmds.filter (fun p => p.1 == i)).map
        (fun p => p.2)).count Cmd.reset = 3 := by
  have hex := resetLoop_exhausted ((scs i).reset_outs)
    (requiredFor (readSlot st i).config (scs i).step_out) hmis
  constructor
  · have hs := stepProcess_state_at hasCM hasStacker st scs i hi hw
    have h2 : (stepProcess hasCM hasStacker st scs).state.obs_dicts.getD i []
        = (processSlotLocal hasCM hasStacker (readSlot st i) (scs i)).s.obs :=
      congrArg SlotState.obs hs
    rw [h2, processSlotLocal_done_obs hasCM hasStacker _ _ hdone, hex]
    rfl
  · rw [stepProcess_cmds_at hasCM hasStacker st scs i hi hw]
    have hc := processSlotLocal_done_cmds_count hasCM hasStacker (readSlot st i) (scs i)
      hdone
    rw [hex] at hc
    simp [List.map_map, Function.comp, List.count_cons, hc]

/-- C3 witness: a concrete done slot whose 3 reset responses all mismatch keeps
its observations and saw exactly 3 reset commands. -/
theorem c3_reset_retry_exhaustion_witness :
    (stepProcess false false
        ⟨1, [[(0, 5)]], [false], [0], [[]], [false], [false],
         [some ⟨some 2, [], []⟩]⟩
        (fun _ => ⟨⟨[(0, 7)], [(0, 1)], [(0, true)], [(0, false)]⟩,
          fun _ => [(3, 9)], ⟨some 2, [], []⟩⟩)).state.obs_dicts.getD 0 []
      = (⟨1, [[(0, 5)]], [false], [0], [[]], [false], [false],
         [some ⟨some 2, [], []⟩]⟩ : VecState).obs_dicts.getD 0 []
    ∧ (((stepProcess false false
        ⟨1, [[(0, 5)]], [false], [0], [[]], [false], [false],
         [some ⟨some 2, [], []⟩]⟩
        (fun _ => ⟨⟨[(0, 7)], [(0, 1)], [(0, true)], [(0, false)]⟩,
          fun _ => [(3, 9)], ⟨some 2, [], []⟩⟩)).cmds.filter (fun p => p.1 == 0)).map
            (fun p => p.2)).count Cmd.reset = 3 :=
  c3_reset_retry_exhaustion false false _ _ 0 (by decide) (by decide) (by decide)
    (by decide)

lemma sumVals_rewAdd (d : RewDict) (a : AgentId) (r : Rat) :
    sumVals (rewAdd d a r) = sumVals d + r := by
  induction d with
  | nil => simp [rewAdd, sumVals]
  | cons p t ih =>
      obtain ⟨b, s⟩ := p
      by_cases hb : b = a
      · subst hb
        simp [rewAdd, sumVals]
        ring
      · rw [show rewAdd ((b, s) :: t) a r = (b, s) :: rewAdd t a r from by
          simp [rewAdd, hb]]
        simp only [sumVals, List.map_cons, List.sum_cons] at ih ⊢
        rw [ih]
        ring

lemma sumVals_accumRewards (rd : RewDict) :
    ∀ acc : RewDict, sumVals (accumRewards acc rd) = sumVals acc + sumVals rd := by
  induction rd with
  | nil => intro acc; simp [accumRewards, sumVals]
  | cons p t ih =>
      intro acc
      obtain ⟨a, r⟩ := p
      show sumVals (accumRewards (rewAdd acc a r) t) = _
      rw [ih, sumVals_rewAdd]
      simp [sumVals]
      ring

lemma mem_keysOf_rewAdd (d : RewDict) (a : AgentId) (r : Rat) (x : AgentId) :
    x ∈ keysOf (rewAdd d a r) ↔ x ∈ keysOf d ∨ x = a := by
  induction d with
  | nil => simp [rewAdd, keysOf]
  | cons p t ih =>
      obtain ⟨b, s⟩ := p
      by_cases hb : b = a
      · subst hb
        simp [rewAdd, keysOf]
        tauto
      · simp [rewAdd, hb, keysOf] at *
        tauto

lemma nodup_keysOf_rewAdd (d : RewDict) (a : AgentId) (r : Rat)
    (h : (keysOf d).Nodup) : (keysOf (rewAdd d a r)).Nodup := by
  induction d with
  | nil => simp [rewAdd, keysOf]
  | cons p t ih =>
      obtain ⟨b, s⟩ := p
      simp only [keysOf, List.map_cons, List.nodup_cons] at h
      by_cases hb : b = a
      · subst hb
        simpa [rewAdd, keysOf] using h
      · have ht := ih h.2
        simp only [rewAdd, hb, if_false, keysOf, List.map_cons, List.nodup_cons]
        refine ⟨?_, ht⟩
        intro hm
        rcases (mem_keysOf_rewAdd t a r b).mp hm with hmm | hmm
        · exact h.1 hmm
        · exact hb hmm

lemma mem_keysOf_accumRewards (rd : RewDict) :
    ∀ (acc : RewDict) (x : AgentId),
      x ∈ keysOf (accumRewards acc rd) ↔ x ∈ keysOf acc ∨ x ∈ keysOf rd := by
  induction rd with
  | nil => intro acc x; simp [accumRewards, keysOf]
  | cons p t ih =>
      intro acc x
      obtain ⟨a, r⟩ := p
      show x ∈ keysOf (accumRewards (rewAdd acc a r) t) ↔ _
      rw [ih, mem_keysOf_rewAdd]
      simp [keysOf]
      tauto

lemma nodup_keysOf_accumRewards (rd : RewDict) :
    ∀ acc : RewDict, (keysOf acc).Nodup → (keysOf (accumRewards acc rd)).Nodup := by
  induction rd with
  | nil => intro acc h; exact h
  | cons p t ih =>
      intro acc h
      obtain ⟨a, r⟩ := p
      exact ih (rewAdd acc a r) (nodup_keysOf_rewAdd acc a r h)

lemma mem_keysOf_foldl (steps : List RewDict) :
    ∀ (acc : RewDict) (x : AgentId),
      x ∈ keysOf (steps.foldl accumRewards acc) ↔ x ∈ keysOf acc ∨ x ∈ allKeys steps := by
  induction steps with
  | nil => intro acc x; simp [allKeys]
  | cons d t ih =>
      intro acc x
      show x ∈ keysOf (t.foldl accumRewards (accumRewards acc d)) ↔ _
      rw [ih, mem_keysOf_accumRewards]
      simp [allKeys]
      tauto

lemma nodup_keysOf_foldl (steps : List RewDict) :
    ∀ acc : RewDict, (keysOf acc).Nodup → (keysOf (steps.foldl accumRewards acc)).Nodup := by
  induction steps with
  | nil => intro acc h; exact h
  | cons d t ih =>
      intro acc h
      exact ih (accumRewards acc d) (nodup_keysOf_accumRewards d acc h)

lemma sumVals_foldl (steps : List RewDict) :
    ∀ acc : RewDict, sumVals (steps.foldl accumRewards acc)
      = sumVals acc + (steps.map sumVals).sum := by
  induction steps with
  | nil => intro acc; simp
  | cons d t ih =>
      intro acc
      show sumVals (t.foldl accumRewards (accumRewards acc d)) = _
      rw [ih, sumVals_accumRewards]
      simp
      ring

lemma episodeAccum_sum (steps : List RewDict) :
    sumVals (episodeAccum steps) = (steps.map sumVals).sum := by
  have h := sumVals_foldl steps []
  simpa [episodeAccum, sumVals] using h

lemma episodeAccum_length (steps : List RewDict) :
    (episodeAccum steps).length = (allKeys steps).dedup.length := by
  have h1 : (episodeAccum steps).length = (keysOf (episodeAccum steps)).length := by
    simp [keysOf]
  have nd1 : (keysOf (episodeAccum steps)).Nodup :=
    nodup_keysOf_foldl steps [] (by simp [keysOf])
  have nd2 : ((allKeys steps).dedup).Nodup := List.nodup_dedup _
  have hmem : ∀ x, x ∈ keysOf (episodeAccum steps) ↔ x ∈ (allKeys steps).dedup := by
    intro x
    rw [List.mem_dedup]
    have h := mem_keysOf_foldl steps [] x
    simpa [episodeAccum, keysOf] using h
  have hperm : List.Perm (keysOf (episodeAccum steps)) ((allKeys steps).dedup) :=
    (List.perm_ext_iff_of_nodup nd1 nd2).mpr hmem
  rw [h1, hperm.length_eq]

lemma episodeAccum_append (xs : List RewDict) (x : RewDict) :
    episodeAccum (xs ++ [x]) = accumRewards (episodeAccum xs) x := by
  simp [episodeAccum, List.foldl_append]

lemma avg_eq_episodeMeanReward (steps : List RewDict) :
    (if 0 < (episodeAccum steps).length
     then sumVals (episodeAccum steps) / ((episodeAccum steps).length : Rat)
     else 0)
      = episodeMeanReward steps := by
  unfold episodeMeanReward
  rw [episodeAccum_length, episodeAccum_sum]
  by_cases h : (allKeys steps).dedup.length = 0
  · simp [h]
  · have hpos : 0 < (allKeys steps).dedup.length := Nat.pos_of_ne_zero h
    simp [h, hpos]

/-- C4: for every slot that becomes done during a process-mode step with a
curriculum manager present, the one metrics record submitted for it has
success iff some terminated flag is true, timeout iff some truncated flag is
true and not success, and episode_reward equal to the sum over the episode
steps (the accumulated prior steps plus this final step) of every agent
reward, divided by the number of distinct agent ids seen in the episode, 0
when none was seen. -/
theorem c4_curriculum_metrics (hasStacker : Bool) (st : VecState)
    (scs : Nat → SlotScript) (i : Nat) (priorSteps : List RewDict)
    (hi : i < st.num_envs) (hw : wf st)
    (hdone : (anyFlag (scs i).step_out.terminated
        || anyFlag (scs i).step_out.truncated) = true)
    (hacc : (readSlot st i).rew = episodeAccum priorSteps) :
    ((stepProcess true hasStacker st scs).mets.filter (fun p => p.1 == i)).map
        (fun p => p.2)
      = [⟨anyFlag (scs i).step_out.terminated,
          anyFlag (scs i).step_out.truncated && !anyFlag (scs i).step_out.terminated,
          episodeMeanReward (priorSteps ++ [(scs i).step_out.rewards])⟩] := by
  rw [stepProcess_mets_at true hasStacker st scs i hi hw,
    processSlotLocal_done_mets hasStacker _ _ hdone]
  simp only [List.map_cons, List.map_nil]
  congr 2
  rw [hacc, ← episodeAccum_append, avg_eq_episodeMeanReward]

/-- C4 witness: a slot that accumulated reward 1 for agent 0 and now ends with
rewards 2 for agent 0 and 4 for agent 1 reports success, no timeout and mean
reward (1 + 2 + 4) / 2. -/
theorem c4_curriculum_metrics_witness :
    ((stepProcess true false
        ⟨1, [[(0, 5)]], [false], [0], [[(0, 1)]], [false], [false], [none]⟩
        (fun _ => ⟨⟨[(0, 7)], [(0, 2), (1, 4)], [(0, true)], [(0, false)]⟩,
          fun _ => [(3, 9)], ⟨none, [], []⟩⟩)).mets.filter (fun p => p.1 == 0)).map
        (fun p => p.2)
      = [⟨anyFlag [(0, true)],
          anyFlag [(0, false)] && !anyFlag [(0, true)],
          episodeMeanReward [[(0, 1)], [(0, 2), (1, 4)]]⟩] :=
  c4_curriculum_metrics false _ _ 0 [[(0, 1)]] (by decide) (by decide) (by decide)
    (by decide)

end RlbotVec
